import Mathlib

/-!
Verification of the timesheet tracker core (timesheetTracker.py).

The Python program keeps an ordered list of timesheet rows (the tree
widget's top-level items) together with four running aggregates:
`total_time`, `billable_time`, `expected_time_offset` and
`project_groups`.  This file embeds the state and the mutating
operations (`add_entry`, `delete_entry`, `edit_entry`, `new_timesheet`,
`load_timesheet`, `save_to_file`'s document construction and the
expected-end-time computation of `update_total`) as pure Lean functions
over rational numbers, and proves properties about them.

Numbers: Python floats are idealised as `ℚ`.  Strings: only ASCII case
conversion matters, so `str.lower`/`str.upper` are modelled per
character.
-/

namespace Timesheet

/-- ASCII lowering of a Python string, `str.lower` restricted to the
ASCII range (the only projects the program compares are ASCII). -/
def pyLower (s : String) : String := String.mk (s.data.map Char.toLower)

/-- Test used throughout the Python code: `project.lower() == "lunch"`. -/
def isLunch (project : String) : Bool := pyLower project == "lunch"

/-- First letter of a project name, uppercased, with `"?"` for an empty
name: `project[0].upper() if project else "?"` (line 397). -/
def firstLetter (project : String) : String :=
  match project.data with
  | [] => "?"
  | c :: _ => (Char.toUpper c).toString

/-- Default sentinel substitution of `add_entry` (lines 415-416):
`if not project: project = "kdg"`. -/
def effProject (project : String) : String :=
  if project = "" then "kdg" else project

/-- Python 3 `round` to an integer: round half to even. -/
def pyRound (q : ℚ) : ℤ :=
  if q - ⌊q⌋ < 1/2 then ⌊q⌋
  else if 1/2 < q - ⌊q⌋ then ⌊q⌋ + 1
  else if ⌊q⌋ % 2 = 0 then ⌊q⌋ else ⌊q⌋ + 1

/-- Python 3 `int(...)` on a number: truncation toward zero. -/
def pyIntTrunc (q : ℚ) : ℤ :=
  if 0 ≤ q then ⌊q⌋ else -⌊-q⌋

/-- The hours check of `add_entry` (line 411):
`round(time * 10) % 1 == 0`.  `round` yields an integer, so this is
`True` for every numeric input. -/
def validHours (time : ℚ) : Bool := pyRound (time * 10) % 1 == 0

/-- One row of the tree widget: hours, billable flag (text column `"X"`
or `""`), project, description, timestamp. -/
structure Entry where
  hours : ℚ
  billable : Bool
  project : String
  description : String
  timestamp : String
deriving DecidableEq, Repr

/-- The mutable state of `TimesheetTracker` that the claims concern:
the rows plus the four aggregates (`__init__` lines 65-69). -/
structure TState where
  entries : List Entry
  total_time : ℚ
  billable_time : ℚ
  expected_time_offset : ℚ
  project_groups : List (String × ℚ)
deriving DecidableEq, Repr

/-- Initial state set up by `__init__`. -/
def emptyState : TState :=
  { entries := [], total_time := 0, billable_time := 0,
    expected_time_offset := 0, project_groups := [] }

/-- Python dict update `groups[k] = groups.get(k, 0) + t` preserving
insertion order (lines 400-403). -/
def addToGroups (g : List (String × ℚ)) (k : String) (t : ℚ) :
    List (String × ℚ) :=
  match g with
  | [] => [(k, t)]
  | (k₁, v) :: rest =>
    if k₁ = k then (k₁, v + t) :: rest else (k₁, v) :: addToGroups rest k t

/-- One iteration of the loop of `update_project_groups`
(lines 386-403): lunch and non-billable rows are skipped, otherwise the
row's hours are added to the bucket of the project's first letter. -/
def groupStep (g : List (String × ℚ)) (e : Entry) : List (String × ℚ) :=
  if isLunch e.project || !e.billable then g
  else addToGroups g (firstLetter e.project) e.hours

/-- Full recomputation of the per-letter map performed by
`update_project_groups` (called from `update_total` after every
mutation). -/
def update_project_groups (entries : List Entry) : List (String × ℚ) :=
  entries.foldl groupStep []

/-- The `add_entry` handler (lines 408-448).  `timeTxt` is the parse of
the hours text field (`none` when `float(...)` raises), `now` is the
timestamp produced by `datetime.now().strftime(...)` at line 419.
Returns the new state and `some message` when a `ValueError` was shown. -/
def add_entry (s : TState) (timeTxt : Option ℚ) (projectIn : String)
    (description : String) (billableChecked : Bool) (now : String) :
    TState × Option String :=
  match timeTxt with
  | none => (s, some "could not convert string to float")
  | some time =>
    if validHours time then
      let project := effProject projectIn
      let e : Entry :=
        { hours := time, billable := billableChecked, project := project,
          description := description, timestamp := now }
      let entries₁ := s.entries ++ [e]
      if isLunch project then
        ({ s with entries := entries₁,
                  expected_time_offset := s.expected_time_offset + time,
                  project_groups := update_project_groups entries₁ }, none)
      else
        ({ s with entries := entries₁,
                  total_time := s.total_time + time,
                  billable_time :=
                    s.billable_time + (if billableChecked then time else 0),
                  project_groups := update_project_groups entries₁ }, none)
    else (s, some "Time must be in increments of 0.1 hours")

/-- The `delete_entry` handler after the user confirms (lines 343-356);
`i` is the index of the current item.  With no valid selection nothing
happens. -/
def delete_entry (s : TState) (i : Nat) : TState :=
  match s.entries[i]? with
  | none => s
  | some e =>
    let entries₁ := s.entries.eraseIdx i
    if isLunch e.project then
      { s with entries := entries₁,
               expected_time_offset := s.expected_time_offset - e.hours,
               project_groups := update_project_groups entries₁ }
    else
      { s with entries := entries₁,
               total_time := s.total_time - e.hours,
               billable_time :=
                 s.billable_time - (if e.billable then e.hours else 0),
               project_groups := update_project_groups entries₁ }

/-- The edit workflow: the `edit_entry` handler (lines 308-331) removes
row `i` and reverses its aggregate contribution exactly like
`delete_entry`, staging its field values in the input widgets; the
subsequent `add_entry` click re-adds the (possibly modified) values with
a timestamp freshly generated by `datetime.now()` at line 419. -/
def edit_entry (s : TState) (i : Nat) (newHours : ℚ)
    (newProject newDescription : String) (newBillable : Bool)
    (now : String) : TState :=
  match s.entries[i]? with
  | none => s
  | some _ =>
    (add_entry (delete_entry s i) (some newHours) newProject
        newDescription newBillable now).1

/-- The `new_timesheet` handler after confirmation (lines 206-220):
clear everything, then `update_total` recomputes the groups. -/
def new_timesheet (_s : TState) : TState :=
  { entries := [], total_time := 0, billable_time := 0,
    expected_time_offset := 0,
    project_groups := update_project_groups [] }

/-- One entry of a loaded JSON document.  A field is `none` when the
key is absent from the object (`entry['...']` raises `KeyError`).
`billable` is read with `entry.get('billable', True)` (line 245). -/
structure EntryDoc where
  time : Option ℚ
  project : Option String
  description : Option String
  timestamp : Option String
  billable : Option Bool
deriving DecidableEq, Repr

/-- A parsed JSON document.  `entries` is `none` when the `entries` key
is absent (`data['entries']` raises `KeyError` at line 244).  The three
scalar fields are written by `save_to_file` and never read back. -/
structure Doc where
  entries : Option (List EntryDoc)
  total_time : ℚ := 0
  billable_time : ℚ := 0
  expected_time_offset : ℚ := 0
deriving DecidableEq, Repr

/-- An entry object holding every key the load loop reads. -/
def wellFormed (ed : EntryDoc) : Bool :=
  ed.time.isSome && ed.project.isSome && ed.description.isSome &&
    ed.timestamp.isSome

/-- The `for entry in data['entries']` loop of `load_timesheet`
(lines 244-263): each well-formed entry is appended to the tree and
classified into the accumulators; the first entry with a missing key
raises, aborting the loop with the state built so far.  On normal
completion `update_total` recomputes the groups.  The second component
is `true` when an exception was caught. -/
def loadEntries (s : TState) : List EntryDoc → TState × Bool
  | [] => ({ s with project_groups := update_project_groups s.entries }, false)
  | ed :: rest =>
    match ed.time, ed.project, ed.description, ed.timestamp with
    | some t, some p, some d, some ts =>
      let bl := ed.billable.getD true
      let entries₁ : List Entry :=
        s.entries ++ [{ hours := t, billable := bl, project := p,
                        description := d, timestamp := ts }]
      let s₁ :=
        if isLunch p then
          { s with entries := entries₁,
                   expected_time_offset := s.expected_time_offset + t }
        else
          { s with entries := entries₁,
                   total_time := s.total_time + t,
                   billable_time :=
                     s.billable_time + (if bl then t else 0) }
      loadEntries s₁ rest
    | _, _, _, _ => (s, true)

/-- The `load_timesheet` handler once a parsed document is in hand
(lines 234-265).  The tree is cleared and the scalar accumulators reset
(lines 238-241) before `data['entries']` is touched, so those resets
survive any failure; `self.project_groups` is only rewritten by the
`update_total` call on success. -/
def load_timesheet (s : TState) (doc : Doc) : TState × Bool :=
  let s₀ : TState :=
    { entries := [], total_time := 0, billable_time := 0,
      expected_time_offset := 0, project_groups := s.project_groups }
  match doc.entries with
  | none => (s₀, true)
  | some docEntries => loadEntries s₀ docEntries

/-- The JSON object `save_to_file` writes for one row (lines 286-292). -/
def entryToDoc (e : Entry) : EntryDoc :=
  { time := some e.hours, project := some e.project,
    description := some e.description, timestamp := some e.timestamp,
    billable := some e.billable }

/-- The document `save_to_file` writes (lines 282-299); the spec calls
this `serialize`. -/
def serialize (s : TState) : Doc :=
  { entries := some (s.entries.map entryToDoc),
    total_time := s.total_time, billable_time := s.billable_time,
    expected_time_offset := s.expected_time_offset }

/-- Minutes after midnight of the expected end time computed by
`update_total` (lines 371-377): 8:00 AM (480 minutes) plus
`int(total_expected_hours)` hours plus
`int((total_expected_hours - hours) * 60)` minutes. -/
def expected_minutes (total offset : ℚ) : ℤ :=
  let teh := total + offset
  let hrs := pyIntTrunc teh
  let mins := pyIntTrunc ((teh - hrs) * 60)
  480 + hrs * 60 + mins

/-- Modelled from the spec: the same projection with
`hours_part = floor(teh)` and `minutes_part = round((teh - hours_part)
* 60)` as the specification words it, for comparison with
`expected_minutes`. -/
def expected_minutes_spec (total offset : ℚ) : ℤ :=
  let teh := total + offset
  let hrs := ⌊teh⌋
  let mins := pyRound ((teh - hrs) * 60)
  480 + hrs * 60 + mins

/-- Two-digit zero padding used by `strftime`. -/
def pad2 (n : ℕ) : String :=
  if n < 10 then "0" ++ toString n else toString n

/-- `strftime("%I:%M %p")` of a minutes-after-midnight count (reduced
modulo one day, as a datetime rendered as time of day). -/
def formatClock (m : ℤ) : String :=
  let md := (Int.emod m 1440).toNat
  let h24 := md / 60
  let mins := md % 60
  let h12 := if h24 % 12 = 0 then 12 else h24 % 12
  pad2 h12 ++ ":" ++ pad2 mins ++ (if h24 < 12 then " AM" else " PM")

/-- Contribution of one row to `total_time`: hours of non-lunch rows. -/
def totalContrib (e : Entry) : ℚ :=
  if isLunch e.project then 0 else e.hours

/-- Contribution of one row to `billable_time`: hours of non-lunch
billable rows. -/
def billableContrib (e : Entry) : ℚ :=
  if isLunch e.project then 0 else if e.billable then e.hours else 0

/-- Contribution of one row to `expected_time_offset`: hours of lunch
rows. -/
def offsetContrib (e : Entry) : ℚ :=
  if isLunch e.project then e.hours else 0

/-- Sum of a per-row quantity over a list of rows. -/
def sumBy (f : Entry → ℚ) : List Entry → ℚ
  | [] => 0
  | e :: es => f e + sumBy f es

/-- The three scalar aggregates agree with a full recomputation over
the rows. -/
def ScalarInv (s : TState) : Prop :=
  s.total_time = sumBy totalContrib s.entries ∧
  s.billable_time = sumBy billableContrib s.entries ∧
  s.expected_time_offset = sumBy offsetContrib s.entries

/-- All four aggregates agree with a full recomputation over the rows. -/
def Inv (s : TState) : Prop :=
  ScalarInv s ∧ s.project_groups = update_project_groups s.entries

/-- Lookup in the per-letter map (Python `k in groups` / `groups[k]`). -/
def lookupG : List (String × ℚ) → String → Option ℚ
  | [], _ => none
  | (k, v) :: rest, L => if k = L then some v else lookupG rest L

/-- Whether a row is counted in the bucket of letter `L`: non-lunch,
billable and first letter `L`. -/
def countsFor (L : String) (e : Entry) : Bool :=
  !(isLunch e.project || !e.billable) && (firstLetter e.project == L)

/-- Hours a row contributes to the bucket of letter `L`. -/
def groupContrib (L : String) (e : Entry) : ℚ :=
  if isLunch e.project || !e.billable then 0
  else if firstLetter e.project = L then e.hours else 0

/-- A concrete one-row state used to instantiate the theorems: one
billable hour on project `"Widgets"`, aggregates consistent. -/
def sDemo : TState :=
  { entries := [{ hours := 1, billable := true, project := "Widgets",
                  description := "build", timestamp := "09:00:00 AM" }],
    total_time := 1, billable_time := 1, expected_time_offset := 0,
    project_groups := [("W", 1)] }

/-- A document whose `entries` key is missing. -/
def badDoc : Doc := { entries := none }

end Timesheet

namespace Timesheet

theorem update_project_groups_concat (es : List Entry) (e : Entry) :
    update_project_groups (es ++ [e]) = groupStep (update_project_groups es) e := by
  simp [update_project_groups, List.foldl_append]

theorem lookupG_addToGroups (g : List (String × ℚ)) (k : String) (t : ℚ) (L : String) :
    lookupG (addToGroups g k t) L =
      if k = L then some ((lookupG g L).getD 0 + t) else lookupG g L := by
  induction g with
  | nil => by_cases h : k = L <;> simp [addToGroups, lookupG, h]
  | cons p rest ih =>
    obtain ⟨k₁, v⟩ := p
    by_cases h1 : k₁ = k
    · subst h1
      by_cases h2 : k₁ = L
      · subst h2; simp [addToGroups, lookupG]
      · simp [addToGroups, lookupG, h2]
    · by_cases h2 : k₁ = L
      · subst h2
        have hk : ¬(k = k₁) := fun h => h1 h.symm
        simp [addToGroups, lookupG, h1, hk]
      · simp [addToGroups, lookupG, h1, h2, ih]

theorem groupContrib_eq_zero (L : String) (e : Entry) (h : countsFor L e = false) :
    groupContrib L e = 0 := by
  by_cases hs : (isLunch e.project || !e.billable) = true
  · simp [groupContrib, hs]
  · have hs' : isLunch e.project = false ∧ e.billable = true := by
      have hs2 : (isLunch e.project || !e.billable) = false := by simpa using hs
      rw [Bool.or_eq_false_iff] at hs2
      exact ⟨hs2.1, by simpa using hs2.2⟩
    have hL : ¬(firstLetter e.project = L) := by
      intro hL
      simp [countsFor, hL] at h
      rw [h hs'.1] at hs'
      exact Bool.false_ne_true hs'.2
    simp [groupContrib, hs, hL]

theorem sumBy_groupContrib_zero (L : String) :
    ∀ es : List Entry, es.any (countsFor L) = false →
      sumBy (groupContrib L) es = 0 := by
  intro es
  induction es with
  | nil => intro _; simp [sumBy]
  | cons e rest ih =>
    intro h
    rw [List.any_cons, Bool.or_eq_false_iff] at h
    simp [sumBy, groupContrib_eq_zero L e h.1, ih h.2]

theorem lookupG_foldl (L : String) :
    ∀ (es : List Entry) (g : List (String × ℚ)),
      lookupG (es.foldl groupStep g) L =
        if es.any (countsFor L) = true then
          some ((lookupG g L).getD 0 + sumBy (groupContrib L) es)
        else lookupG g L := by
  intro es
  induction es with
  | nil => intro g; simp [sumBy]
  | cons e rest ih =>
    intro g
    rw [List.foldl_cons, ih (groupStep g e), List.any_cons]
    by_cases hskip : (isLunch e.project || !e.billable) = true
    · have hc : countsFor L e = false := by simp [countsFor, hskip]
      have hg : groupStep g e = g := by simp [groupStep, hskip]
      simp [hc, hg, sumBy, groupContrib_eq_zero L e hc]
    · by_cases hL : firstLetter e.project = L
      · have hc : countsFor L e = true := by
          simp [countsFor, hL]
          simpa using hskip
        have hg : groupStep g e = addToGroups g L e.hours := by
          rw [groupStep, if_neg hskip, hL]
        have hcontrib : groupContrib L e = e.hours := by
          simp [groupContrib, hskip, hL]
        rw [hg, lookupG_addToGroups, if_pos rfl]
        cases hrest : rest.any (countsFor L) with
        | true =>
          simp [hc, hcontrib, sumBy]
          ring
        | false =>
          simp [hc, hcontrib, sumBy, sumBy_groupContrib_zero L rest hrest]
      · have hc : countsFor L e = false := by simp [countsFor, hL]
        have hg : groupStep g e = addToGroups g (firstLetter e.project) e.hours := by
          rw [groupStep, if_neg hskip]
        have hlook : lookupG (addToGroups g (firstLetter e.project) e.hours) L
            = lookupG g L := by
          rw [lookupG_addToGroups, if_neg hL]
        have hcontrib : groupContrib L e = 0 := groupContrib_eq_zero L e hc
        simp [hc, hg, hlook, sumBy, hcontrib]

theorem lookupG_update_project_groups (es : List Entry) (L : String) :
    lookupG (update_project_groups es) L =
      if es.any (countsFor L) = true then some (sumBy (groupContrib L) es)
      else none := by
  rw [update_project_groups, lookupG_foldl]
  simp [lookupG]


theorem sumBy_append (f : Entry → ℚ) (es : List Entry) (e : Entry) :
    sumBy f (es ++ [e]) = sumBy f es + f e := by
  induction es with
  | nil => simp [sumBy]
  | cons a rest ih => simp [sumBy, ih]; ring

theorem sumBy_eraseIdx (f : Entry → ℚ) :
    ∀ (es : List Entry) (i : Nat) (e : Entry), es[i]? = some e →
      sumBy f es = sumBy f (es.eraseIdx i) + f e := by
  intro es
  induction es with
  | nil => intro i e h; simp at h
  | cons a rest ih =>
    intro i e h
    cases i with
    | zero => simp at h; subst h; simp [sumBy]; ring
    | succ j =>
      simp at h
      have := ih j e h
      simp [sumBy, List.eraseIdx, this]; ring

theorem loadEntries_scalar (l : List EntryDoc) :
    ∀ s : TState, ScalarInv s → ScalarInv (loadEntries s l).1 := by
  induction l with
  | nil =>
    intro s hs
    exact ⟨hs.1, hs.2.1, hs.2.2⟩
  | cons ed rest ih =>
    intro s hs
    obtain ⟨t, p, d, ts, b⟩ := ed
    cases t with
    | none => exact hs
    | some t =>
      cases p with
      | none => exact hs
      | some p =>
        cases d with
        | none => exact hs
        | some d =>
          cases ts with
          | none => exact hs
          | some ts =>
            rw [loadEntries]
            by_cases hl : isLunch p = true
            · apply ih
              refine ⟨?_, ?_, ?_⟩ <;>
                simp [hl, sumBy_append, totalContrib, billableContrib,
                  offsetContrib, hs.1, hs.2.1, hs.2.2]
            · apply ih
              refine ⟨?_, ?_, ?_⟩ <;>
                simp [hl, sumBy_append, totalContrib, billableContrib,
                  offsetContrib, hs.1, hs.2.1, hs.2.2]

theorem loadEntries_snd (l : List EntryDoc) :
    ∀ s : TState, (loadEntries s l).2 = l.any (fun ed => !(wellFormed ed)) := by
  induction l with
  | nil => intro s; simp [loadEntries]
  | cons ed rest ih =>
    intro s
    obtain ⟨t, p, d, ts, b⟩ := ed
    cases t <;> cases p <;> cases d <;> cases ts <;>
      simp [loadEntries, wellFormed, ih]

theorem loadEntries_fail_groups (l : List EntryDoc) :
    ∀ s : TState, (loadEntries s l).2 = true →
      (loadEntries s l).1.project_groups = s.project_groups := by
  induction l with
  | nil => intro s h; simp [loadEntries] at h
  | cons ed rest ih =>
    intro s h
    obtain ⟨t, p, d, ts, b⟩ := ed
    cases t with
    | none => rfl
    | some t =>
      cases p with
      | none => rfl
      | some p =>
        cases d with
        | none => rfl
        | some d =>
          cases ts with
          | none => rfl
          | some ts =>
            rw [loadEntries] at h ⊢
            rw [ih _ h]
            by_cases hl : isLunch p = true <;> simp [hl]

theorem loadEntries_success_groups (l : List EntryDoc) :
    ∀ s : TState, (loadEntries s l).2 = false →
      (loadEntries s l).1.project_groups =
        update_project_groups (loadEntries s l).1.entries := by
  induction l with
  | nil => intro s _; simp [loadEntries]
  | cons ed rest ih =>
    intro s h
    obtain ⟨t, p, d, ts, b⟩ := ed
    cases t with
    | none => simp [loadEntries] at h
    | some t =>
      cases p with
      | none => simp [loadEntries] at h
      | some p =>
        cases d with
        | none => simp [loadEntries] at h
        | some d =>
          cases ts with
          | none => simp [loadEntries] at h
          | some ts =>
            rw [loadEntries] at h ⊢
            exact ih _ h


theorem loadEntries_map (es : List Entry) :
    ∀ s : TState, loadEntries s (es.map entryToDoc) =
      ({ entries := s.entries ++ es,
         total_time := s.total_time + sumBy totalContrib es,
         billable_time := s.billable_time + sumBy billableContrib es,
         expected_time_offset :=
           s.expected_time_offset + sumBy offsetContrib es,
         project_groups := update_project_groups (s.entries ++ es) },
       false) := by
  induction es with
  | nil => intro s; cases s; simp [loadEntries, sumBy]
  | cons e rest ih =>
    intro s
    obtain ⟨h, bl, p, d, ts⟩ := e
    rw [List.map_cons, entryToDoc, loadEntries]
    by_cases hl : isLunch p = true
    · simp only [hl, if_true, Option.getD_some]
      rw [ih]
      simp [sumBy, totalContrib, billableContrib, offsetContrib, hl,
        TState.mk.injEq, List.append_assoc]
      ring
    · simp only [hl, if_false, Option.getD_some, Bool.false_eq_true]
      rw [ih]
      simp [sumBy, totalContrib, billableContrib, offsetContrib, hl,
        TState.mk.injEq, List.append_assoc]
      constructor
      · ring
      · ring


theorem validHours_true (time : ℚ) : validHours time = true := by
  simp [validHours, Int.emod_one]

theorem add_entry_eq (s : TState) (t : ℚ) (p d : String) (b : Bool)
    (now : String) :
    add_entry s (some t) p d b now =
      (if isLunch (effProject p) then
        ({ s with
             entries := s.entries ++ [⟨t, b, effProject p, d, now⟩],
             expected_time_offset := s.expected_time_offset + t,
             project_groups :=
               update_project_groups
                 (s.entries ++ [⟨t, b, effProject p, d, now⟩]) }, none)
      else
        ({ s with
             entries := s.entries ++ [⟨t, b, effProject p, d, now⟩],
             total_time := s.total_time + t,
             billable_time := s.billable_time + (if b then t else 0),
             project_groups :=
               update_project_groups
                 (s.entries ++ [⟨t, b, effProject p, d, now⟩]) }, none)) := by
  rw [add_entry, validHours_true]
  simp

theorem eraseIdx_concat (es : List Entry) (e : Entry) :
    (es ++ [e]).eraseIdx es.length = es := by
  induction es with
  | nil => simp
  | cons a r ih => simp [List.eraseIdx, ih]


theorem delete_entry_entries (s : TState) (i : Nat) :
    (delete_entry s i).entries = s.entries.eraseIdx i := by
  rw [delete_entry]
  cases h : s.entries[i]? with
  | none =>
    rw [List.eraseIdx_of_length_le (List.getElem?_eq_none_iff.mp h)]
  | some e =>
    by_cases hl : isLunch e.project = true <;> simp [hl]

theorem add_entry_Inv (s : TState) (timeTxt : Option ℚ) (p d : String)
    (b : Bool) (now : String) (hInv : Inv s) :
    Inv (add_entry s timeTxt p d b now).1 := by
  cases timeTxt with
  | none => exact hInv
  | some t =>
    rw [add_entry_eq]
    by_cases hl : isLunch (effProject p) = true <;>
      simp only [hl, if_true, if_false, Bool.false_eq_true] <;>
      exact ⟨⟨by simp [sumBy_append, totalContrib, hl, hInv.1.1],
             by simp [sumBy_append, billableContrib, hl, hInv.1.2.1],
             by simp [sumBy_append, offsetContrib, hl, hInv.1.2.2]⟩, rfl⟩

theorem delete_entry_Inv (s : TState) (i : Nat) (hInv : Inv s) :
    Inv (delete_entry s i) := by
  rw [delete_entry]
  cases h : s.entries[i]? with
  | none => exact hInv
  | some e =>
    have ht := sumBy_eraseIdx totalContrib s.entries i e h
    have hb := sumBy_eraseIdx billableContrib s.entries i e h
    have ho := sumBy_eraseIdx offsetContrib s.entries i e h
    by_cases hl : isLunch e.project = true <;>
      simp only [hl, if_true, if_false, Bool.false_eq_true]
    · refine ⟨⟨?_, ?_, ?_⟩, rfl⟩
      · simp only [hInv.1.1, ht]
        simp [totalContrib, hl]
      · simp only [hInv.1.2.1, hb]
        simp [billableContrib, hl]
      · simp only [hInv.1.2.2, ho]
        simp [offsetContrib, hl]
    · refine ⟨⟨?_, ?_, ?_⟩, rfl⟩
      · simp only [hInv.1.1, ht]
        simp [totalContrib, hl]
      · simp only [hInv.1.2.1, hb]
        simp [billableContrib, hl]
      · simp only [hInv.1.2.2, ho]
        simp [offsetContrib, hl]

theorem edit_entry_Inv (s : TState) (i : Nat) (t : ℚ) (p d : String)
    (b : Bool) (now : String) (hInv : Inv s) :
    Inv (edit_entry s i t p d b now) := by
  rw [edit_entry]
  cases h : s.entries[i]? with
  | none => exact hInv
  | some e => exact add_entry_Inv _ _ _ _ _ _ (delete_entry_Inv s i hInv)

theorem new_timesheet_Inv (s : TState) : Inv (new_timesheet s) :=
  ⟨⟨rfl, rfl, rfl⟩, rfl⟩

theorem load_timesheet_ScalarInv (s : TState) (doc : Doc) :
    ScalarInv (load_timesheet s doc).1 := by
  rw [load_timesheet]
  cases hdoc : doc.entries with
  | none => exact ⟨rfl, rfl, rfl⟩
  | some l => exact loadEntries_scalar l _ ⟨rfl, rfl, rfl⟩

theorem load_timesheet_success_Inv (s : TState) (doc : Doc)
    (h : (load_timesheet s doc).2 = false) :
    Inv (load_timesheet s doc).1 := by
  refine ⟨load_timesheet_ScalarInv s doc, ?_⟩
  cases hdoc : doc.entries with
  | none => rw [load_timesheet, hdoc] at h; simp at h
  | some l =>
    rw [load_timesheet, hdoc] at h ⊢
    exact loadEntries_success_groups l _ h


theorem foldl_groupStep_filter_lunch (es : List Entry) :
    ∀ g : List (String × ℚ), es.foldl groupStep g =
      (es.filter fun e => !(isLunch e.project)).foldl groupStep g := by
  induction es with
  | nil => intro g; rfl
  | cons e rest ih =>
    intro g
    by_cases hl : isLunch e.project = true
    · have hstep : groupStep g e = g := by simp [groupStep, hl]
      simp [List.filter_cons, hl, hstep, ih]
    · simp [List.filter_cons, hl, ih]

theorem edit_entry_entries (s : TState) (i : Nat) (e : Entry)
    (h : s.entries[i]? = some e) (t : ℚ) (p d : String) (b : Bool)
    (now : String) :
    (edit_entry s i t p d b now).entries =
      s.entries.eraseIdx i ++ [⟨t, b, effProject p, d, now⟩] := by
  simp only [edit_entry, h]
  rw [add_entry_eq]
  by_cases hl : isLunch (effProject p) = true <;>
    simp [hl, delete_entry_entries]

theorem pyIntTrunc_natCast (n : ℕ) : pyIntTrunc (n : ℚ) = n := by
  rw [pyIntTrunc, if_pos (by positivity)]
  exact Int.floor_natCast n

theorem pyRound_natCast (n : ℕ) : pyRound (n : ℚ) = n := by
  rw [pyRound, Int.floor_natCast, if_pos (by norm_num)]

/-- Claim C1: the spec requires `add_entry` to reject hours that are not
positive multiples of 0.1 with a `ValidationError`, citing
`add_entry(hours=0.05)` as failing.  The code's guard
`round(time * 10) % 1 == 0` is an integer modulo 1, hence always true:
no numeric input is ever rejected.  `add_entry` with hours `0.05`
succeeds, creates an entry and changes `total_hours`, contradicting the
claim; hours `0.3` succeeds as claimed. -/
theorem C1_validation_is_vacuous :
    (∀ time : ℚ, validHours time = true) ∧
    (add_entry emptyState (some (1/20)) "Widgets" "demo" true
        "09:00:00 AM").2 = none ∧
    (add_entry emptyState (some (1/20)) "Widgets" "demo" true
        "09:00:00 AM").1.total_time = 1/20 ∧
    (add_entry emptyState (some (1/20)) "Widgets" "demo" true
        "09:00:00 AM").1.entries.length = 1 ∧
    (add_entry emptyState (some (3/10)) "Widgets" "demo" true
        "09:00:00 AM").2 = none := by
  have hW : isLunch (effProject "Widgets") = false := by decide
  refine ⟨validHours_true, ?_, ?_, ?_, ?_⟩ <;>
    simp [add_entry_eq, hW, emptyState]

/-- Claim C2, counterexample: loading a document without an `entries`
key from the one-row state `sDemo` reports an error but does not leave
the state untouched. -/
theorem C2_counterexample :
    (load_timesheet sDemo badDoc).2 = true ∧
    (load_timesheet sDemo badDoc).1 ≠ sDemo := by
  decide

/-- Claim C2 as amended: on a malformed document (missing `entries`
key, or an entry missing `time`/`project`/`description`/`timestamp`)
`load_timesheet` reports an error, but the prior Timesheet is not
preserved: rows are cleared and the three scalar aggregates reset
before parsing (rows before the malformed one are re-added and
counted); only `project_groups` keeps its prior value. -/
theorem C2_load_failure_behavior :
    (∀ (s : TState) (doc : Doc), doc.entries = none →
      load_timesheet s doc =
        ({ entries := [], total_time := 0, billable_time := 0,
           expected_time_offset := 0,
           project_groups := s.project_groups }, true)) ∧
    (∀ (s : TState) (doc : Doc) (l : List EntryDoc), doc.entries = some l →
      ((load_timesheet s doc).2 = true ↔
        ∃ ed ∈ l, wellFormed ed = false)) ∧
    (∀ (s : TState) (doc : Doc), (load_timesheet s doc).2 = true →
      (load_timesheet s doc).1.project_groups = s.project_groups) := by
  refine ⟨?_, ?_, ?_⟩
  · intro s doc h
    rw [load_timesheet, h]
  · intro s doc l h
    rw [load_timesheet, h]
    simp [loadEntries_snd, List.any_eq_true]
  · intro s doc h
    cases hdoc : doc.entries with
    | none => rw [load_timesheet, hdoc]
    | some l =>
      rw [load_timesheet, hdoc] at h ⊢
      exact loadEntries_fail_groups l _ h

/-- Witness for C2: the amended statement evaluated on the one-row
state `sDemo` and the malformed document `badDoc`. -/
theorem C2_witness :
    load_timesheet sDemo badDoc =
      ({ entries := [], total_time := 0, billable_time := 0,
         expected_time_offset := 0,
         project_groups := sDemo.project_groups }, true) :=
  C2_load_failure_behavior.1 sDemo badDoc rfl

/-- Claim C3, counterexample: after a failed load (malformed document),
`update_total` is never reached, so the stored `project_groups` is
stale: it differs from a full recomputation over the (now cleared)
entries list. -/
theorem C3_counterexample :
    (load_timesheet sDemo badDoc).1.project_groups ≠
      update_project_groups (load_timesheet sDemo badDoc).1.entries := by
  decide

/-- Claim C3 as amended: after every `add_entry`, `delete_entry`,
`edit_entry`, `new_timesheet` and every successful `load_timesheet`,
all four aggregates equal a full recomputation over the entries list;
after a failed load only the three scalar aggregates are guaranteed
consistent (`project_groups` can be stale, as `C3_counterexample`
shows). -/
theorem C3_aggregates_invariant :
    (∀ (s : TState) (timeTxt : Option ℚ) (p d : String) (b : Bool)
        (now : String), Inv s → Inv (add_entry s timeTxt p d b now).1) ∧
    (∀ (s : TState) (i : Nat), Inv s → Inv (delete_entry s i)) ∧
    (∀ (s : TState) (i : Nat) (t : ℚ) (p d : String) (b : Bool)
        (now : String), Inv s → Inv (edit_entry s i t p d b now)) ∧
    (∀ s : TState, Inv (new_timesheet s)) ∧
    (∀ (s : TState) (doc : Doc), (load_timesheet s doc).2 = false →
      Inv (load_timesheet s doc).1) ∧
    (∀ (s : TState) (doc : Doc), ScalarInv (load_timesheet s doc).1) :=
  ⟨fun s timeTxt p d b now h => add_entry_Inv s timeTxt p d b now h,
   fun s i h => delete_entry_Inv s i h,
   fun s i t p d b now h => edit_entry_Inv s i t p d b now h,
   new_timesheet_Inv,
   fun s doc h => load_timesheet_success_Inv s doc h,
   fun s doc => load_timesheet_ScalarInv s doc⟩

/-- Witness for C3: the invariant is preserved when an entry is added
to the consistent one-row state `sDemo`. -/
theorem C3_witness :
    Inv (add_entry sDemo (some 2) "Widgets" "more" false "10:00:00 AM").1 :=
  C3_aggregates_invariant.1 sDemo (some 2) "Widgets" "more" false
    "10:00:00 AM"
    ⟨⟨by simp [sDemo, sumBy, totalContrib, isLunch, pyLower],
      by simp [sDemo, sumBy, billableContrib, isLunch, pyLower],
      by simp [sDemo, sumBy, offsetContrib, isLunch, pyLower]⟩,
     by decide⟩


/-- Claim C4: an entry whose project is case-insensitively `"lunch"`
never contributes to `total_time`, `billable_time` or the recomputed
`project_groups`; its hours go to `expected_time_offset` instead, in
the add, delete, edit and load classification paths. -/
theorem C4_lunch_classification :
    (∀ (s : TState) (t : ℚ) (p d : String) (b : Bool) (now : String),
      isLunch (effProject p) = true →
        (add_entry s (some t) p d b now).1.total_time = s.total_time ∧
        (add_entry s (some t) p d b now).1.billable_time
          = s.billable_time ∧
        (add_entry s (some t) p d b now).1.expected_time_offset
          = s.expected_time_offset + t ∧
        (add_entry s (some t) p d b now).1.project_groups
          = update_project_groups s.entries) ∧
    (∀ (s : TState) (i : Nat) (e : Entry), s.entries[i]? = some e →
      isLunch e.project = true →
        (delete_entry s i).total_time = s.total_time ∧
        (delete_entry s i).billable_time = s.billable_time ∧
        (delete_entry s i).expected_time_offset
          = s.expected_time_offset - e.hours) ∧
    (∀ es : List Entry, update_project_groups es =
      update_project_groups (es.filter fun e => !(isLunch e.project))) ∧
    (∀ (s : TState) (i : Nat) (t : ℚ) (p d : String) (b : Bool)
        (now : String), (s.entries[i]?).isSome = true →
      edit_entry s i t p d b now
        = (add_entry (delete_entry s i) (some t) p d b now).1) ∧
    (∀ (s : TState) (doc : Doc),
      (load_timesheet s doc).1.expected_time_offset
        = sumBy offsetContrib (load_timesheet s doc).1.entries ∧
      (load_timesheet s doc).1.total_time
        = sumBy totalContrib (load_timesheet s doc).1.entries) := by
  refine ⟨?_, ?_, ?_, ?_, ?_⟩
  · intro s t p d b now h
    refine ⟨?_, ?_, ?_, ?_⟩ <;> (rw [add_entry_eq, if_pos h]; try rfl)
    rw [update_project_groups_concat]
    simp [groupStep, h]
  · intro s i e h hl
    refine ⟨?_, ?_, ?_⟩ <;> simp [delete_entry, h, hl]
  · intro es
    exact foldl_groupStep_filter_lunch es []
  · intro s i t p d b now hs
    cases h : s.entries[i]? with
    | none => rw [h] at hs; simp at hs
    | some e => simp only [edit_entry, h]
  · intro s doc
    have h := load_timesheet_ScalarInv s doc
    exact ⟨h.2.2, h.1⟩

/-- Witness for C4: adding a one-hour `"Lunch"` entry to `sDemo` leaves
`total_time`, `billable_time` and the recomputed groups unchanged and
moves the hour into the offset. -/
theorem C4_witness :
    (add_entry sDemo (some 1) "Lunch" "" false
        "12:00:00 PM").1.total_time = sDemo.total_time ∧
    (add_entry sDemo (some 1) "Lunch" "" false
        "12:00:00 PM").1.billable_time = sDemo.billable_time ∧
    (add_entry sDemo (some 1) "Lunch" "" false
        "12:00:00 PM").1.expected_time_offset
      = sDemo.expected_time_offset + 1 ∧
    (add_entry sDemo (some 1) "Lunch" "" false
        "12:00:00 PM").1.project_groups
      = update_project_groups sDemo.entries :=
  C4_lunch_classification.1 sDemo 1 "Lunch" "" false "12:00:00 PM"
    (by decide)

/-- Claim C5, counterexample: editing the sole entry of `sDemo`
(timestamp `"09:00:00 AM"`) while the wall clock reads
`"01:00:00 PM"` produces an entry stamped `"01:00:00 PM"`: `add_entry`
regenerates the timestamp with `datetime.now()`, it does not reuse the
original entry's timestamp. -/
theorem C5_counterexample :
    ((edit_entry sDemo 0 1 "Widgets" "build" true
        "01:00:00 PM").entries.map fun e => e.timestamp)
      = ["01:00:00 PM"] ∧
    sDemo.entries.map (fun e => e.timestamp) = ["09:00:00 AM"] ∧
    ("01:00:00 PM" : String) ≠ "09:00:00 AM" := by
  rw [edit_entry_entries sDemo 0 ⟨1, true, "Widgets", "build",
    "09:00:00 AM"⟩ rfl]
  refine ⟨by decide, by decide, by decide⟩

/-- Claim C5 as amended: `edit_entry` equals `remove_entry` followed by
`add_entry` with the replacement field values and a freshly generated
timestamp (the `datetime.now()` of the re-add), not the original
entry's timestamp; the edited entry is appended as the new last
element. -/
theorem C5_edit_is_remove_then_append (s : TState) (i : Nat) (e : Entry)
    (h : s.entries[i]? = some e) (t : ℚ) (p d : String) (b : Bool)
    (now : String) :
    edit_entry s i t p d b now
      = (add_entry (delete_entry s i) (some t) p d b now).1 ∧
    (edit_entry s i t p d b now).entries
      = s.entries.eraseIdx i ++ [⟨t, b, effProject p, d, now⟩] ∧
    (edit_entry s i t p d b now).entries.getLast?
      = some ⟨t, b, effProject p, d, now⟩ := by
  refine ⟨by simp only [edit_entry, h], edit_entry_entries s i e h t p d b now, ?_⟩
  rw [edit_entry_entries s i e h t p d b now, List.getLast?_concat]

/-- Witness for C5: the amended statement evaluated on `sDemo` with
replacement values and re-add timestamp `"02:00:00 PM"`. -/
theorem C5_witness :
    edit_entry sDemo 0 2 "Gadgets" "fix" false "02:00:00 PM"
      = (add_entry (delete_entry sDemo 0) (some 2) "Gadgets" "fix" false
          "02:00:00 PM").1 ∧
    (edit_entry sDemo 0 2 "Gadgets" "fix" false "02:00:00 PM").entries
      = sDemo.entries.eraseIdx 0
          ++ [⟨2, false, effProject "Gadgets", "fix", "02:00:00 PM"⟩] ∧
    (edit_entry sDemo 0 2 "Gadgets" "fix" false
        "02:00:00 PM").entries.getLast?
      = some ⟨2, false, effProject "Gadgets", "fix", "02:00:00 PM"⟩ :=
  C5_edit_is_remove_then_append sDemo 0
    ⟨1, true, "Widgets", "build", "09:00:00 AM"⟩ rfl 2 "Gadgets" "fix"
    false "02:00:00 PM"


/-- Claim C6, counterexample: the code computes the minutes part with
`int(...)` (truncation), not `round(...)`.  At `total_time = 0.01`,
`offset = 0` (a state `add_entry` accepts, since the 0.1-increment
check never fires) the fractional part is `0.6` minutes: the code
truncates to 8:00 AM + 0 minutes, while the claimed formula rounds to
1 minute. -/
theorem C6_counterexample :
    expected_minutes (1/100) 0 ≠ expected_minutes_spec (1/100) 0 ∧
    (add_entry emptyState (some (1/100)) "Widgets" "w" true
        "09:00:00 AM").1.total_time = 1/100 := by
  constructor
  · have hsum : (1/100 : ℚ) + 0 = 1/100 := by norm_num
    have hfl : ⌊(1/100 : ℚ)⌋ = 0 := by norm_num
    have htr : pyIntTrunc (1/100) = 0 := by
      rw [pyIntTrunc, if_pos (by norm_num), hfl]
    have hfrac : ((1/100 : ℚ) - ((0:ℤ):ℚ)) * 60 = 3/5 := by norm_num
    have hcode : expected_minutes (1/100) 0 = 480 := by
      simp only [expected_minutes, hsum, htr]
      rw [hfrac]
      have : pyIntTrunc (3/5) = 0 := by
        rw [pyIntTrunc, if_pos (by norm_num)]
        norm_num
      rw [this]
      decide
    have hspec : expected_minutes_spec (1/100) 0 = 481 := by
      simp only [expected_minutes_spec, hsum, hfl]
      rw [hfrac]
      have : pyRound (3/5) = 1 := by
        have h35 : ⌊(3/5 : ℚ)⌋ = 0 := by norm_num
        rw [pyRound, h35]
        rw [if_neg (by norm_num), if_pos (by norm_num)]
        decide
      rw [this]
      decide
    rw [hcode, hspec]
    decide
  · have hW : isLunch (effProject "Widgets") = false := by decide
    simp [add_entry_eq, hW, emptyState]

/-- Claim C6 as amended: the expected end time uses Python `int`
truncation for both the hour and the minute part
(`int(teh)` and `int((teh - int(teh)) * 60)`); this agrees with the
claimed floor/round formula whenever `total + offset` is a nonnegative
multiple of 0.1, and with an 8:00 AM start, `total_hours = 2.5` and
`offset_hours = 1.0` give 11:30 AM. -/
theorem C6_expected_end_time :
    (∀ (total offset : ℚ) (a b : ℕ), b < 10 →
      total + offset = (a : ℚ) + (b : ℚ)/10 →
      expected_minutes total offset = expected_minutes_spec total offset) ∧
    formatClock (expected_minutes (5/2) 1) = "11:30 AM" := by
  constructor
  · intro total offset a b hb hsum
    have hb10 : ⌊(b:ℚ)/10⌋ = 0 := by
      rw [Int.floor_eq_zero_iff]
      constructor
      · positivity
      · rw [div_lt_one (by norm_num)]
        exact_mod_cast hb
    have hfloor : ⌊total + offset⌋ = (a : ℤ) := by
      rw [hsum, add_comm, Int.floor_add_nat, hb10, zero_add]
    have hpos : (0:ℚ) ≤ total + offset := by
      rw [hsum]; positivity
    have htr : pyIntTrunc (total + offset) = (a : ℤ) := by
      rw [pyIntTrunc, if_pos hpos, hfloor]
    have hfrac : (total + offset - ((a:ℤ):ℚ)) * 60 = ((6*b : ℕ) : ℚ) := by
      rw [hsum]; push_cast; ring
    simp only [expected_minutes, expected_minutes_spec, htr, hfloor,
      hfrac, pyIntTrunc_natCast, pyRound_natCast]
  · have hsum : (5/2 : ℚ) + 1 = 7/2 := by norm_num
    have hfl : ⌊(7/2 : ℚ)⌋ = 3 := by norm_num
    have htr : pyIntTrunc ((5:ℚ)/2 + 1) = 3 := by
      rw [pyIntTrunc, if_pos (by norm_num), hsum, hfl]
    have hfrac : (((5:ℚ)/2 + 1) - ((3:ℤ):ℚ)) * 60 = ((30:ℕ):ℚ) := by
      push_cast; norm_num
    have hcode : expected_minutes (5/2) 1 = 690 := by
      simp only [expected_minutes, htr, hfrac, pyIntTrunc_natCast]
      decide
    rw [hcode]
    decide

/-- Witness for C6: the truncation and floor/round projections agree at
`total + offset = 3 + 5/10` hours. -/
theorem C6_witness :
    expected_minutes (((3:ℕ) : ℚ) + ((5:ℕ) : ℚ)/10) 0
      = expected_minutes_spec (((3:ℕ) : ℚ) + ((5:ℕ) : ℚ)/10) 0 :=
  C6_expected_end_time.1 (((3:ℕ) : ℚ) + ((5:ℕ) : ℚ)/10) 0 3 5 (by decide)
    (add_zero _)


/-- Claim C7: serializing a consistent Timesheet and loading the
document back reproduces the Timesheet exactly (entries and all four
aggregates, the latter recomputed rather than trusted), and a loaded
entry without a `billable` key behaves exactly as one with
`billable = true`. -/
theorem C7_round_trip :
    (∀ s s₀ : TState, Inv s →
      load_timesheet s₀ (serialize s) = (s, false)) ∧
    (∀ (s : TState) (t : ℚ) (p d ts : String),
      loadEntries s [⟨some t, some p, some d, some ts, none⟩]
      = loadEntries s [⟨some t, some p, some d, some ts, some true⟩]) := by
  constructor
  · intro s s₀ hInv
    obtain ⟨h1, h2, h3⟩ := hInv.1
    have h4 := hInv.2
    rw [load_timesheet]
    simp only [serialize]
    rw [loadEntries_map]
    obtain ⟨ents, tt, bt, off, pg⟩ := s
    simp only at h1 h2 h3 h4
    simp [TState.mk.injEq, h1, h2, h3, h4]
  · intro s t p d ts
    rfl

/-- Witness for C7: the round trip evaluated on the consistent one-row
state `sDemo`. -/
theorem C7_witness :
    load_timesheet emptyState (serialize sDemo) = (sDemo, false) :=
  C7_round_trip.1 sDemo emptyState
    ⟨⟨by simp [sDemo, sumBy, totalContrib, isLunch, pyLower],
      by simp [sDemo, sumBy, billableContrib, isLunch, pyLower],
      by simp [sDemo, sumBy, offsetContrib, isLunch, pyLower]⟩,
     by decide⟩

/-- Claim C8: adding any entry to a Timesheet whose `project_groups`
agrees with a recomputation and then deleting that same entry (at the
index where it was appended) restores the whole state exactly, in
particular all four aggregates. -/
theorem C8_add_then_delete (s : TState)
    (hg : s.project_groups = update_project_groups s.entries)
    (t : ℚ) (p d : String) (b : Bool) (now : String) :
    delete_entry (add_entry s (some t) p d b now).1 s.entries.length
      = s := by
  obtain ⟨ents, tt, bt, off, pg⟩ := s
  simp only at hg
  have hidx : (ents ++ [⟨t, b, effProject p, d, now⟩] :
      List Entry)[ents.length]? = some ⟨t, b, effProject p, d, now⟩ :=
    List.getElem?_concat_length ents _
  rw [add_entry_eq]
  by_cases hl : isLunch (effProject p) = true
  · rw [if_pos hl]
    rw [delete_entry]
    simp only [hidx, hl, if_true]
    simp [eraseIdx_concat, TState.mk.injEq, hg]
  · rw [if_neg hl]
    rw [delete_entry]
    simp only [hidx, hl, if_false]
    simp [eraseIdx_concat, TState.mk.injEq, hg]

/-- Witness for C8: add-then-delete of a two-hour billable entry on
`sDemo` restores `sDemo` exactly. -/
theorem C8_witness :
    delete_entry (add_entry sDemo (some 2) "Paper" "x" true
        "10:00:00 AM").1 sDemo.entries.length = sDemo :=
  C8_add_then_delete sDemo (by decide) 2 "Paper" "x" true "10:00:00 AM"

/-- Claim C9: `project_groups` maps a letter `L` to the sum of hours
over exactly the non-lunch billable entries whose project starts
(case-uppercased, `"?"` for empty) with `L`; the key is present exactly
when such an entry exists.  Adding a single billable 2.5-hour
`"Widgets"` entry to the empty Timesheet yields `[("W", 2.5)]`. -/
theorem C9_groups_characterization :
    (∀ (es : List Entry) (L : String),
      lookupG (update_project_groups es) L =
        if es.any (countsFor L) = true then
          some (sumBy (groupContrib L) es)
        else none) ∧
    (add_entry emptyState (some (5/2)) "Widgets" "build" true
        "09:00:00 AM").1.project_groups = [("W", 5/2)] := by
  refine ⟨lookupG_update_project_groups, ?_⟩
  have hW : ¬(isLunch (effProject "Widgets") = true) := by decide
  have hWf : isLunch (effProject "Widgets") = false := by decide
  have hfl : firstLetter (effProject "Widgets") = "W" := by decide
  rw [add_entry_eq, if_neg hW]
  simp [emptyState, update_project_groups, groupStep, hWf, addToGroups,
    hfl]

/-- Claim C10, frame property of `add_entry`: a non-lunch add leaves
`expected_time_offset` unchanged; a lunch add leaves `total_time`,
`billable_time` and `project_groups` unchanged; a non-lunch
non-billable add changes only `total_time` among the three scalar
aggregates. -/
theorem C10_add_frame (s : TState)
    (hg : s.project_groups = update_project_groups s.entries)
    (t : ℚ) (p d : String) (b : Bool) (now : String) :
    (isLunch (effProject p) = false →
      (add_entry s (some t) p d b now).1.expected_time_offset
        = s.expected_time_offset) ∧
    (isLunch (effProject p) = true →
      (add_entry s (some t) p d b now).1.total_time = s.total_time ∧
      (add_entry s (some t) p d b now).1.billable_time
        = s.billable_time ∧
      (add_entry s (some t) p d b now).1.project_groups
        = s.project_groups) ∧
    (isLunch (effProject p) = false → b = false →
      (add_entry s (some t) p d b now).1.billable_time
        = s.billable_time ∧
      (add_entry s (some t) p d b now).1.expected_time_offset
        = s.expected_time_offset ∧
      (add_entry s (some t) p d b now).1.total_time
        = s.total_time + t) := by
  refine ⟨?_, ?_, ?_⟩
  · intro h
    rw [add_entry_eq, if_neg (by rw [h]; exact Bool.false_ne_true)]
  · intro h
    rw [add_entry_eq, if_pos h]
    refine ⟨rfl, rfl, ?_⟩
    rw [update_project_groups_concat]
    simp [groupStep, h, hg]
  · intro h hb
    rw [add_entry_eq, if_neg (by rw [h]; exact Bool.false_ne_true)]
    subst hb
    simp

/-- Witness for C10: adding a two-hour `"LUNCH"` entry to `sDemo`
leaves `total_time` unchanged. -/
theorem C10_witness :
    (add_entry sDemo (some 2) "LUNCH" "break"
        false "12:30:00 PM").1.total_time = sDemo.total_time := by
  have h := C10_add_frame sDemo (by decide) 2 "LUNCH" "break" false
    "12:30:00 PM"
  exact (h.2.1 (by decide)).1

end Timesheet
